import Mathlib

/-!
Verification of the `@synet/kv` key-value storage engine.

The development shallowly embeds the final in-memory storage engine and its
default serialization codec:

* `defaultSerialize` / `defaultDeserialize` from `src/serialization.ts`
  (the compact keyv-inspired codec, imported by the final memory adapter).
* `MemoryAdapter` from `src/adapters/memory-final.adapter.ts`
  (store, TTL computation and expiry checks, capacity rejection,
  statistics counters, cleanup sweep, batch writes).

Modelling conventions:

* JS strings are modelled as `List Char` (`Str`); `startsWith`, `slice`
  and concatenation become `List.isPrefixOf`, `List.drop` and `++`.
* The JSON text layer is modelled by the tree type `Json`: the value
  returned by `JSON.stringify` is represented by the parse tree of the
  produced text (so `JSON.parse ∘ JSON.stringify = id` — a property of
  the platform, not of this repository — holds by construction), while
  all repository-owned logic (marker escaping, base64 tagging, the
  `JSON.parse` reviver, memory-size estimation of the serialized text)
  is translated faithfully.
* JS numbers inside stored values are modelled as integers; the codec
  and the store never compute with them.
* Timestamps and TTLs are integers (`Date.now()` is passed in as an
  explicit `now` argument at exactly the call sites where the source
  reads the clock).  JS truthiness of a numeric `expires` field
  (`entry.expires && Date.now() > entry.expires`) is modelled exactly:
  a zero timestamp is falsy and disables the expiry check.
* Mutable adapter state becomes explicit state passing; a `set` that
  throws is an `Except.error` (the source throws before any mutation,
  so the caller's state is unchanged); the batch `mset` returns the
  state reached by the successfully applied prefix together with the
  index of the failing entry, mirroring mutation-then-throw semantics.
-/

/-- JS strings, modelled as lists of Unicode scalar values. -/
abbrev Str := List Char

/-- UTF-16 length of a JS string (`String.prototype.length`): code points
beyond the basic multilingual plane occupy two UTF-16 units. -/
def jsLength (s : Str) : Nat :=
  s.foldl (fun n c => n + (if c.toNat < 0x10000 then 1 else 2)) 0

/-! ## Base64 (model of `Buffer.toString("base64")` and `Buffer.from(_, "base64")`) -/

/-- The base64 alphabet used by Node's `Buffer`. -/
def b64alphabet : Str :=
  "ABCDEFGHIJKLMNOPQRSTUVWXYZabcdefghijklmnopqrstuvwxyz0123456789+/".toList

/-- Digit value `n` (0..63) to its base64 character. -/
def encChar (n : Nat) : Char := b64alphabet.getD n 'A'

/-- Base64 character to its digit value (64 if not in the alphabet). -/
def decChar (c : Char) : Nat := b64alphabet.findIdx (fun x => x == c)

/-- `Buffer.toString("base64")`: standard base64 with `=` padding. -/
def b64encode : List Nat → Str
  | [] => []
  | [a] =>
      [encChar (a / 4), encChar (a % 4 * 16), '=', '=']
  | [a, b] =>
      [encChar (a / 4), encChar (a % 4 * 16 + b / 16), encChar (b % 16 * 4), '=']
  | a :: b :: c :: rest =>
      encChar (a / 4) :: encChar (a % 4 * 16 + b / 16) ::
      encChar (b % 16 * 4 + c / 64) :: encChar (c % 64) :: b64encode rest

/-- `Buffer.from(s, "base64")` on well-formed base64 text (the only inputs
the codec under verification ever produces). -/
def b64decode : Str → List Nat
  | c1 :: c2 :: c3 :: c4 :: rest =>
      if c3 = '=' then
        [decChar c1 * 4 + decChar c2 / 16]
      else if c4 = '=' then
        [decChar c1 * 4 + decChar c2 / 16, decChar c2 % 16 * 16 + decChar c3 / 4]
      else
        (decChar c1 * 4 + decChar c2 / 16) ::
        (decChar c2 % 16 * 16 + decChar c3 / 4) ::
        (decChar c3 % 4 * 64 + decChar c4) :: b64decode rest
  | _ => []

theorem decChar_encChar : ∀ n, n < 64 → decChar (encChar n) = n := by decide

theorem encChar_ne_pad : ∀ n, n < 64 → encChar n ≠ '=' := by decide

theorem b64decode_b64encode :
    ∀ (l : List Nat), (∀ x ∈ l, x < 256) → b64decode (b64encode l) = l
  | [], _ => rfl
  | [a], h => by
      have ha : a < 256 := h a (by simp)
      have h1 : a / 4 < 64 := by omega
      have h2 : a % 4 * 16 < 64 := by omega
      simp only [b64encode, b64decode,
        decChar_encChar _ h1, decChar_encChar _ h2, if_true]
      simp
      omega
  | [a, b], h => by
      have ha : a < 256 := h a (by simp)
      have hb : b < 256 := h b (by simp)
      have h1 : a / 4 < 64 := by omega
      have h2 : a % 4 * 16 + b / 16 < 64 := by omega
      have h3 : b % 16 * 4 < 64 := by omega
      simp only [b64encode, b64decode, if_neg (encChar_ne_pad _ h3),
        decChar_encChar _ h1, decChar_encChar _ h2, decChar_encChar _ h3]
      simp
      omega
  | a :: b :: c :: rest, h => by
      have ha : a < 256 := h a (by simp)
      have hb : b < 256 := h b (by simp)
      have hc : c < 256 := h c (by simp)
      have h1 : a / 4 < 64 := by omega
      have h2 : a % 4 * 16 + b / 16 < 64 := by omega
      have h3 : b % 16 * 4 + c / 64 < 64 := by omega
      have h4 : c % 64 < 64 := by omega
      have ih := b64decode_b64encode rest (by
        intro x hx
        exact h x (by simp [hx]))
      simp only [b64encode, b64decode, if_neg (encChar_ne_pad _ h3),
        if_neg (encChar_ne_pad _ h4),
        decChar_encChar _ h1, decChar_encChar _ h2, decChar_encChar _ h3,
        decChar_encChar _ h4, ih]
      simp only [List.cons.injEq, and_true]
      omega

/-! ## Value and JSON tree types -/

/-- Supported JS values: primitives, `null`, `Buffer`s, arrays and plain
objects (objects as ordered key/value lists, matching JS property order). -/
inductive JSValue where
  | vnull
  | vbool (b : Bool)
  | vnum (n : Int)
  | vstr (s : Str)
  | vbuf (bytes : List Nat)
  | varr (xs : List JSValue)
  | vobj (kvs : List (Str × JSValue))

/-- Parse trees of JSON texts. -/
inductive Json where
  | jnull
  | jbool (b : Bool)
  | jnum (n : Int)
  | jstr (s : Str)
  | jarr (xs : List Json)
  | jobj (kvs : List (Str × Json))

/-! ## The default codec (`src/serialization.ts`) -/

/-- The reserved marker prefix `":base64:"`. -/
def bufferMarker : Str := ":base64:".toList

/-- `value.startsWith(":")`. -/
def isColonPrefix : Str → Bool
  | [] => false
  | c :: _ => c == ':'

mutual

/-- The tree of the text produced by `JSON.stringify` on a supported value.
`Buffer`s are dissolved by `JSON.stringify` through their `toJSON` method
into `{"type":"Buffer","data":[...]}`; nested strings are emitted verbatim
(no marker escaping happens below the top level). -/
def stringifyTree : JSValue → Json
  | .vnull => .jnull
  | .vbool b => .jbool b
  | .vnum n => .jnum n
  | .vstr s => .jstr s
  | .vbuf bytes =>
      .jobj [("type".toList, .jstr "Buffer".toList),
             ("data".toList, .jarr (bytes.map fun b => .jnum (Int.ofNat b)))]
  | .varr xs => .jarr (stringifyList xs)
  | .vobj kvs => .jobj (stringifyKVs kvs)

/-- `JSON.stringify` on the elements of an array. -/
def stringifyList : List JSValue → List Json
  | [] => []
  | x :: xs => stringifyTree x :: stringifyList xs

/-- `JSON.stringify` on the properties of an object. -/
def stringifyKVs : List (Str × JSValue) → List (Str × Json)
  | [] => []
  | (k, v) :: rest => (k, stringifyTree v) :: stringifyKVs rest

end

/-- `defaultSerialize` (serialization.ts, lines 10-19), as the tree of the
returned JSON text.  The argument `none` plays the JS value `undefined`.

```
if (value === undefined || value === null) return "null";
if (typeof value === "string")
  return JSON.stringify(value.startsWith(":") ? `:${value}` : value);
if (Buffer.isBuffer(value))
  return JSON.stringify(`:base64:${value.toString("base64")}`);
return JSON.stringify(value);
``` -/
def defaultSerialize : Option JSValue → Json
  | none => .jnull
  | some .vnull => .jnull
  | some (.vstr s) =>
      .jstr (if isColonPrefix s then ':' :: s else s)
  | some (.vbuf bytes) => .jstr (bufferMarker ++ b64encode bytes)
  | some v => stringifyTree v

mutual

/-- The `JSON.parse` reviver of `defaultDeserialize` (serialization.ts,
lines 25-34), applied bottom-up to every value of the parse tree (JS
revivers never visit object keys):

```
if (typeof value === "string") {
  if (value.startsWith(":base64:")) return Buffer.from(value.slice(8), "base64");
  return value.startsWith(":") ? value.slice(1) : value;
}
return value;
``` -/
def reviveTree : Json → JSValue
  | .jnull => .vnull
  | .jbool b => .vbool b
  | .jnum n => .vnum n
  | .jstr s =>
      if bufferMarker.isPrefixOf s then .vbuf (b64decode (s.drop 8))
      else if isColonPrefix s then .vstr (s.drop 1)
      else .vstr s
  | .jarr xs => .varr (reviveList xs)
  | .jobj kvs => .vobj (reviveKVs kvs)

/-- The reviver on array elements. -/
def reviveList : List Json → List JSValue
  | [] => []
  | x :: xs => reviveTree x :: reviveList xs

/-- The reviver on object properties. -/
def reviveKVs : List (Str × Json) → List (Str × JSValue)
  | [] => []
  | (k, v) :: rest => (k, reviveTree v) :: reviveKVs rest

end

/-- `defaultDeserialize`: `JSON.parse` with the reviver above. -/
def defaultDeserialize (data : Json) : JSValue := reviveTree data

/-- One full codec round-trip on a defined value. -/
def defaultRoundTrip (v : JSValue) : JSValue :=
  defaultDeserialize (defaultSerialize (some v))

/-! ### The JSON text itself (for the textual form of `serialize` and the
adapter's byte estimates) -/

/-- Hexadecimal digit, as produced by JS `\u00XX` escapes. -/
def hexDigit (n : Nat) : Char :=
  "0123456789abcdef".toList.getD n '0'

/-- `JSON.stringify`'s escaping of a single character inside a string
literal. -/
def jsonEscapeChar (c : Char) : Str :=
  if c = '"' then ['\\', '"']
  else if c = '\\' then ['\\', '\\']
  else if c = '\x08' then ['\\', 'b']
  else if c = '\t' then ['\\', 't']
  else if c = '\n' then ['\\', 'n']
  else if c = '\x0c' then ['\\', 'f']
  else if c = '\r' then ['\\', 'r']
  else if c.toNat < 32 then
    ['\\', 'u', '0', '0', hexDigit (c.toNat / 16), hexDigit (c.toNat % 16)]
  else [c]

/-- A JSON string literal for `s`. -/
def jsonQuote (s : Str) : Str :=
  '"' :: (s.map jsonEscapeChar).flatten ++ ['"']

mutual

/-- The text of a JSON tree, exactly as `JSON.stringify` prints it
(no spacing, integers in decimal). -/
def jsonStringify : Json → Str
  | .jnull => "null".toList
  | .jbool true => "true".toList
  | .jbool false => "false".toList
  | .jnum n => (toString n).toList
  | .jstr s => jsonQuote s
  | .jarr xs => '[' :: jsonStringifyList xs ++ [']']
  | .jobj kvs => '{' :: jsonStringifyKVs kvs ++ ['}']

/-- Comma-separated array elements. -/
def jsonStringifyList : List Json → Str
  | [] => []
  | [x] => jsonStringify x
  | x :: xs => jsonStringify x ++ ',' :: jsonStringifyList xs

/-- Comma-separated `"key":value` object properties. -/
def jsonStringifyKVs : List (Str × Json) → Str
  | [] => []
  | [(k, v)] => jsonQuote k ++ ':' :: jsonStringify v
  | (k, v) :: rest => jsonQuote k ++ ':' :: jsonStringify v ++ ',' :: jsonStringifyKVs rest

end

/-- `defaultSerialize` as the actual string it returns. -/
def defaultSerializeText (v : Option JSValue) : Str :=
  jsonStringify (defaultSerialize v)

example : defaultRoundTrip (.vstr ":x".toList) = .vstr ":x".toList := rfl

example : defaultRoundTrip (.vbuf [0, 1, 255, 254]) = .vbuf [0, 1, 255, 254] := rfl

example : defaultRoundTrip (.varr [.vstr ":x".toList]) = .varr [.vstr "x".toList] := rfl

/-! ## Codec round-trip -/

mutual

/-- No string strictly inside a composite value begins with the marker
character, and no `Buffer` occurs strictly inside a composite value:
exactly the values on which the bottom-up reviver is the identity. -/
def innerSafe : JSValue → Bool
  | .vnull => true
  | .vbool _ => true
  | .vnum _ => true
  | .vstr s => !(isColonPrefix s)
  | .vbuf _ => false
  | .varr xs => innerSafeList xs
  | .vobj kvs => innerSafeKVs kvs

def innerSafeList : List JSValue → Bool
  | [] => true
  | x :: xs => innerSafe x && innerSafeList xs

def innerSafeKVs : List (Str × JSValue) → Bool
  | [] => true
  | (_, v) :: rest => innerSafe v && innerSafeKVs rest

end

/-- The value shapes whose round-trip survives the codec: any top-level
primitive, string or `Buffer` (with genuine bytes), and any composite
whose interior is `innerSafe`. -/
def topSafe : JSValue → Bool
  | .vbuf bytes => bytes.all (fun b => decide (b < 256))
  | .varr xs => innerSafeList xs
  | .vobj kvs => innerSafeKVs kvs
  | _ => true

theorem bufferMarker_eq :
    bufferMarker = [':', 'b', 'a', 's', 'e', '6', '4', ':'] := rfl

theorem isPrefixOf_append_self (p t : Str) : p.isPrefixOf (p ++ t) = true := by
  induction p with
  | nil => simp [List.isPrefixOf]
  | cons c cs ih => simp [List.isPrefixOf, ih]

theorem marker_not_prefix (s : Str) (h : isColonPrefix s = false) :
    bufferMarker.isPrefixOf s = false := by
  match s with
  | [] => rfl
  | c :: t =>
      have hc : (c == ':') = false := h
      have hc2 : (':' == c) = false := by
        rw [beq_eq_false_iff_ne] at hc ⊢
        exact Ne.symm hc
      rw [bufferMarker_eq]
      simp only [List.isPrefixOf, hc2, Bool.false_and]

theorem marker_not_prefix_double (t : Str) :
    bufferMarker.isPrefixOf (':' :: ':' :: t) = false := by
  rw [bufferMarker_eq]
  simp [List.isPrefixOf]

/-- On a top-level string input the escape/unescape pair is symmetric. -/
theorem rt_top_string (s : Str) :
    reviveTree (defaultSerialize (some (.vstr s))) = .vstr s := by
  cases hs : isColonPrefix s with
  | false =>
      rw [defaultSerialize, if_neg (by simp [hs]), reviveTree,
        marker_not_prefix s hs]
      simp [hs]
  | true =>
      match s, hs with
      | c :: t, hs =>
          have hc : c = ':' := by
            have : (c == ':') = true := hs
            exact beq_iff_eq.mp this
          subst hc
          rw [defaultSerialize, if_pos hs, reviveTree, marker_not_prefix_double t]
          simp [isColonPrefix]

mutual

theorem rt_inner : ∀ v, innerSafe v = true → reviveTree (stringifyTree v) = v
  | .vnull, _ => rfl
  | .vbool b, _ => rfl
  | .vnum n, _ => rfl
  | .vstr s, h => by
      have hs : isColonPrefix s = false := by
        have : (!(isColonPrefix s)) = true := h
        simpa using this
      rw [stringifyTree, reviveTree, marker_not_prefix s hs]
      simp [hs]
  | .varr xs, h => by
      rw [stringifyTree, reviveTree, rt_innerList xs (by simpa [innerSafe] using h)]
  | .vobj kvs, h => by
      rw [stringifyTree, reviveTree, rt_innerKVs kvs (by simpa [innerSafe] using h)]

theorem rt_innerList : ∀ xs, innerSafeList xs = true →
    reviveList (stringifyList xs) = xs
  | [], _ => rfl
  | x :: xs, h => by
      have h' : innerSafe x = true ∧ innerSafeList xs = true := by
        have := h
        rw [innerSafeList, Bool.and_eq_true] at this
        exact this
      rw [stringifyList, reviveList, rt_inner x h'.1, rt_innerList xs h'.2]

theorem rt_innerKVs : ∀ kvs, innerSafeKVs kvs = true →
    reviveKVs (stringifyKVs kvs) = kvs
  | [], _ => rfl
  | (k, v) :: rest, h => by
      have h' : innerSafe v = true ∧ innerSafeKVs rest = true := by
        have := h
        rw [innerSafeKVs, Bool.and_eq_true] at this
        exact this
      rw [stringifyKVs, reviveKVs, rt_inner v h'.1, rt_innerKVs rest h'.2]

end

/-! ## The final memory adapter (`src/adapters/memory-final.adapter.ts`) -/

/-- A stored entry: the serialized value (a string, here the tree of that
JSON text) and an optional absolute expiry timestamp (`Date.now() + ttl`). -/
structure StorageEntry where
  value : Json
  expires : Option Int

/-- The adapter's statistics record. -/
structure MemoryStats where
  hits : Nat
  misses : Nat
  sets : Nat
  deletes : Nat
  expired : Nat
  keys : Nat
  memory : Nat
  deriving DecidableEq

/-- Constructor-time configuration (the cleanup timer interval and the
pluggable codec are fixed to their defaults; the timer itself is a real-time
resource outside this model). -/
structure MemoryOptions where
  defaultTTL : Int
  maxKeys : Nat
  deriving DecidableEq

/-- The mutable state of a `MemoryAdapter` instance. -/
structure AdapterState where
  opts : MemoryOptions
  store : List (Str × StorageEntry)
  stats : MemoryStats

/-- A fresh adapter's statistics (`resetStats`). -/
def zeroStats : MemoryStats := ⟨0, 0, 0, 0, 0, 0, 0⟩

/-! `this.store` is a JS `Map`: insertion-ordered, keys unique.  It is
modelled as an ordered association list. -/

/-- `store.has(key)`. -/
def mapHas (m : List (Str × StorageEntry)) (k : Str) : Bool :=
  m.any (fun kv => kv.1 == k)

/-- `store.get(key)`. -/
def mapGet (m : List (Str × StorageEntry)) (k : Str) : Option StorageEntry :=
  (m.find? (fun kv => kv.1 == k)).map (·.2)

/-- `store.set(key, e)`: replaces in place, or appends a new key. -/
def mapSet : List (Str × StorageEntry) → Str → StorageEntry → List (Str × StorageEntry)
  | [], k, e => [(k, e)]
  | (k', e') :: rest, k, e =>
      if k' == k then (k, e) :: rest else (k', e') :: mapSet rest k e

/-- `store.delete(key)`'s effect on the entry list. -/
def mapDelete : List (Str × StorageEntry) → Str → List (Str × StorageEntry)
  | [], _ => []
  | (k', e') :: rest, k =>
      if k' == k then rest else (k', e') :: mapDelete rest k

/-- The expiry test `entry.expires && Date.now() > entry.expires`, with JS
truthiness: an absent or zero timestamp never expires. -/
def isExpired (expires : Option Int) (now : Int) : Bool :=
  match expires with
  | none => false
  | some t => t != 0 && decide (t < now)

/-- `getMemoryUsage()`: 2 bytes per UTF-16 unit of key and serialized value
plus 16 bytes fixed overhead per entry. -/
def memoryUsage (m : List (Str × StorageEntry)) : Nat :=
  m.foldl (fun bytes kv =>
    bytes + jsLength kv.1 * 2 + jsLength (jsonStringify kv.2.value) * 2 + 16) 0

/-- `updateStats()`: recompute the `keys` and `memory` snapshot counters. -/
def updateStats (st : AdapterState) : AdapterState :=
  { st with stats := { st.stats with
      keys := st.store.length,
      memory := memoryUsage st.store } }

/-- The TTL selection of `set`, with JS `??` on the argument and `||` plus
truthiness on the configured default and on the effective TTL:

```
const effectiveTTL = ttl ?? (this.options.defaultTTL || undefined);
const expires = effectiveTTL ? Date.now() + effectiveTTL : undefined;
``` -/
def setExpires (defaultTTL : Int) (ttl : Option Int) (now : Int) : Option Int :=
  match (match ttl with
         | some t => some t
         | none => if defaultTTL = 0 then none else some defaultTTL) with
  | some t => if t = 0 then none else some (now + t)
  | none => none

namespace MemoryAdapter

/-- `get(key)` (lines 86-104): miss on absence, lazy eviction of an expired
entry (incrementing only `expired`), hit otherwise. -/
def get (st : AdapterState) (key : Str) (now : Int) :
    Option JSValue × AdapterState :=
  match mapGet st.store key with
  | none =>
      (none, { st with stats := { st.stats with misses := st.stats.misses + 1 } })
  | some entry =>
      if isExpired entry.expires now then
        (none, updateStats { st with
          store := mapDelete st.store key,
          stats := { st.stats with expired := st.stats.expired + 1 } })
      else
        (some (defaultDeserialize entry.value),
         { st with stats := { st.stats with hits := st.stats.hits + 1 } })

/-- `set(key, value, ttl?)` (lines 106-122).  The capacity check throws
before anything is mutated, so the error case carries no state:

```
if (!this.store.has(key) && this.store.size >= this.options.maxKeys) throw ...
const effectiveTTL = ttl ?? (this.options.defaultTTL || undefined);
const expires = effectiveTTL ? Date.now() + effectiveTTL : undefined;
this.store.set(key, { value: serialized, expires });
this.stats.sets++; this.updateStats();
``` -/
def set (st : AdapterState) (key : Str) (v : JSValue) (ttl : Option Int)
    (now : Int) : Except Unit AdapterState :=
  if mapHas st.store key = false ∧ st.opts.maxKeys ≤ st.store.length then
    .error ()
  else
    .ok (updateStats { st with
      store := mapSet st.store key
        ⟨defaultSerialize (some v), setExpires st.opts.defaultTTL ttl now⟩,
      stats := { st.stats with sets := st.stats.sets + 1 } })

/-- `delete(key)` (lines 124-131). -/
def delete (st : AdapterState) (key : Str) : Bool × AdapterState :=
  if mapHas st.store key then
    (true, updateStats { st with
      store := mapDelete st.store key,
      stats := { st.stats with deletes := st.stats.deletes + 1 } })
  else
    (false, st)

/-- `exists(key)` (lines 133-147): like `get` but decodes nothing and
touches no hit/miss counter. -/
def existsKey (st : AdapterState) (key : Str) (now : Int) :
    Bool × AdapterState :=
  match mapGet st.store key with
  | none => (false, st)
  | some entry =>
      if isExpired entry.expires now then
        (false, updateStats { st with
          store := mapDelete st.store key,
          stats := { st.stats with expired := st.stats.expired + 1 } })
      else
        (true, st)

/-- `clear()` (lines 149-152): drop every entry, reset all counters. -/
def clear (st : AdapterState) : AdapterState :=
  { st with store := [], stats := zeroStats }

/-- `mset(entries, ttl?)` (lines 158-162): sequential `set`s; on a throw the
loop stops, earlier writes stay.  Returns the state reached and the index of
the failing entry, if any. -/
def mset (st : AdapterState) (entries : List (Str × JSValue)) (ttl : Option Int)
    (now : Int) : AdapterState × Option Nat :=
  match entries with
  | [] => (st, none)
  | (k, v) :: rest =>
      match set st k v ttl now with
      | .error _ => (st, some 0)
      | .ok st' =>
          let r := mset st' rest ttl now
          (r.1, r.2.map (· + 1))

/-- `cleanup()` (lines 197-211): sweep out every expired entry, counting
each into `expired`, and return how many were removed. -/
def cleanup (st : AdapterState) (now : Int) : Nat × AdapterState :=
  let cleaned := (st.store.filter (fun kv => isExpired kv.2.expires now)).length
  (cleaned, updateStats { st with
    store := st.store.filter (fun kv => !(isExpired kv.2.expires now)),
    stats := { st.stats with expired := st.stats.expired + cleaned } })

/-- `keys()` of the final adapter (lines 190-192): a bare enumeration,
`Array.from(this.store.keys())` — no cleanup happens first. -/
def keys (st : AdapterState) : List Str :=
  st.store.map (·.1)

/-- `keys()` of the events-variant adapter (`memory.adapter.ts`, lines
284-288), which runs `this.cleanup()` before enumerating; its `cleanup` has
the same store/counter behaviour as the final one. -/
def keysWithCleanup (st : AdapterState) (now : Int) :
    List Str × AdapterState :=
  let r := cleanup st now
  (r.2.store.map (·.1), r.2)

/-- Sequentially apply `set` to every entry, failing if any one fails:
yardstick for `mset`'s prefix semantics. -/
def applyAll (st : AdapterState) (entries : List (Str × JSValue))
    (ttl : Option Int) (now : Int) : Option AdapterState :=
  match entries with
  | [] => some st
  | (k, v) :: rest =>
      match set st k v ttl now with
      | .error _ => none
      | .ok st' => applyAll st' rest ttl now

end MemoryAdapter

/-! ## Association-list facts about the store -/

instance : Inhabited Json := ⟨.jnull⟩

instance : Inhabited JSValue := ⟨.vnull⟩

instance : Inhabited StorageEntry := ⟨⟨.jnull, none⟩⟩

theorem mapGet_nil (k : Str) : mapGet [] k = none := rfl

theorem length_mapSet (m : List (Str × StorageEntry)) (k : Str) (e : StorageEntry) :
    (mapSet m k e).length = if mapHas m k then m.length else m.length + 1 := by
  induction m with
  | nil => simp [mapSet, mapHas]
  | cons kv rest ih =>
      obtain ⟨k', e'⟩ := kv
      by_cases hk : (k' == k) = true
      · have hh : mapHas ((k', e') :: rest) k = true := by simp [mapHas, hk]
        simp [mapSet, hk, hh]
      · rw [Bool.not_eq_true] at hk
        have hh : mapHas ((k', e') :: rest) k = mapHas rest k := by
          simp [mapHas, hk]
        simp only [mapSet, hk, Bool.false_eq_true, if_false, List.length_cons, hh, ih]
        split <;> rfl

theorem mapGet_mapSet_self (m : List (Str × StorageEntry)) (k : Str) (e : StorageEntry) :
    mapGet (mapSet m k e) k = some e := by
  induction m with
  | nil => simp [mapSet, mapGet, List.find?]
  | cons kv rest ih =>
      obtain ⟨k', e'⟩ := kv
      by_cases hk : (k' == k) = true
      · simp [mapSet, hk, mapGet, List.find?]
      · rw [Bool.not_eq_true] at hk
        simp only [mapSet, hk, Bool.false_eq_true, if_false]
        simpa [mapGet, List.find?, hk] using ih

theorem not_mem_keys_mapGet (m : List (Str × StorageEntry)) (k : Str)
    (h : k ∉ m.map Prod.fst) : mapGet m k = none := by
  induction m with
  | nil => rfl
  | cons kv rest ih =>
      obtain ⟨k', e'⟩ := kv
      simp only [List.map_cons, List.mem_cons, not_or] at h
      have hk : (k' == k) = false := by
        rw [beq_eq_false_iff_ne]
        exact fun he => h.1 he.symm
      simpa [mapGet, List.find?, hk] using ih h.2

theorem mem_keys_mapSet (m : List (Str × StorageEntry)) (k : Str) (e : StorageEntry)
    (x : Str) : x ∈ (mapSet m k e).map Prod.fst ↔ x = k ∨ x ∈ m.map Prod.fst := by
  induction m with
  | nil => simp [mapSet]
  | cons kv rest ih =>
      obtain ⟨k', e'⟩ := kv
      by_cases hk : (k' == k) = true
      · have hke : k' = k := beq_iff_eq.mp hk
        subst hke
        simp only [mapSet, beq_self_eq_true, if_true, List.map_cons, List.mem_cons]
        tauto
      · rw [Bool.not_eq_true] at hk
        simp only [mapSet, hk, Bool.false_eq_true, if_false, List.map_cons,
          List.mem_cons, ih]
        tauto

theorem nodup_keys_mapSet (m : List (Str × StorageEntry)) (k : Str) (e : StorageEntry)
    (h : (m.map Prod.fst).Nodup) : ((mapSet m k e).map Prod.fst).Nodup := by
  induction m with
  | nil => simp [mapSet]
  | cons kv rest ih =>
      obtain ⟨k', e'⟩ := kv
      simp only [List.map_cons, List.nodup_cons] at h
      by_cases hk : (k' == k) = true
      · have hke : k' = k := beq_iff_eq.mp hk
        subst hke
        simp only [mapSet, beq_self_eq_true, if_true, List.map_cons, List.nodup_cons]
        exact ⟨h.1, h.2⟩
      · rw [Bool.not_eq_true] at hk
        simp only [mapSet, hk, Bool.false_eq_true, if_false, List.map_cons,
          List.nodup_cons]
        refine ⟨?_, ih h.2⟩
        rw [mem_keys_mapSet]
        push_neg
        refine ⟨?_, h.1⟩
        intro he
        rw [beq_eq_false_iff_ne] at hk
        exact hk he

theorem mapGet_mapDelete_self (m : List (Str × StorageEntry)) (k : Str)
    (h : (m.map Prod.fst).Nodup) : mapGet (mapDelete m k) k = none := by
  induction m with
  | nil => rfl
  | cons kv rest ih =>
      obtain ⟨k', e'⟩ := kv
      simp only [List.map_cons, List.nodup_cons] at h
      by_cases hk : (k' == k) = true
      · have hke : k' = k := beq_iff_eq.mp hk
        subst hke
        simp only [mapDelete, beq_self_eq_true, if_true]
        exact not_mem_keys_mapGet rest _ h.1
      · rw [Bool.not_eq_true] at hk
        simp only [mapDelete, hk, Bool.false_eq_true, if_false]
        simpa [mapGet, List.find?, hk] using ih h.2

/-! ## Facts about `set` -/

theorem setExpires_pos (d t now : Int) (h : t ≠ 0) :
    setExpires d (some t) now = some (now + t) := by
  simp [setExpires, h]

theorem setExpires_zero (d now : Int) : setExpires d (some 0) now = none := rfl

theorem setExpires_default (d now : Int) :
    setExpires d none now = if d = 0 then none else some (now + d) := by
  by_cases hd : d = 0
  · simp [setExpires, hd]
  · simp [setExpires, hd]

theorem set_ok_dest (st : AdapterState) (k : Str) (v : JSValue) (ttl : Option Int)
    (now : Int) (st' : AdapterState)
    (h : MemoryAdapter.set st k v ttl now = .ok st') :
    ¬(mapHas st.store k = false ∧ st.opts.maxKeys ≤ st.store.length)
    ∧ st'.opts = st.opts
    ∧ st'.store = mapSet st.store k
        ⟨defaultSerialize (some v), setExpires st.opts.defaultTTL ttl now⟩
    ∧ st'.stats.sets = st.stats.sets + 1
    ∧ st'.stats.hits = st.stats.hits
    ∧ st'.stats.misses = st.stats.misses
    ∧ st'.stats.deletes = st.stats.deletes
    ∧ st'.stats.expired = st.stats.expired := by
  rw [MemoryAdapter.set] at h
  split at h
  · exact absurd h (by simp)
  · next hc =>
      cases h
      exact ⟨hc, rfl, rfl, rfl, rfl, rfl, rfl, rfl⟩

theorem set_error_iff (st : AdapterState) (k : Str) (v : JSValue) (ttl : Option Int)
    (now : Int) :
    MemoryAdapter.set st k v ttl now = .error () ↔
      mapHas st.store k = false ∧ st.opts.maxKeys ≤ st.store.length := by
  rw [MemoryAdapter.set]
  split
  · next hc => simpa using hc
  · next hc => simpa using hc

/-! ## Claim theorems -/

/-- Head-string observation used to separate values that differ in a nested
string. -/
def obsHeadStr : JSValue → Str
  | .varr (.vstr s :: _) => s
  | _ => []

/-- Observation: is the first array element a `Buffer`? -/
def obsHeadIsBuf : JSValue → Bool
  | .varr (.vbuf _ :: _) => true
  | _ => false

/-- Claim C1 (counterexample): the codec does not round-trip every supported
value.  Marker escaping is applied only to a top-level string while the
parse reviver unescapes at every nesting depth, so
`deserialize(serialize([":x"])) = ["x"]`; a `Buffer` nested inside a
composite is dissolved by `JSON.stringify` into a `{type,data}` object and
is not restored either. -/
theorem defaultCodec_roundTrip_fails_nested :
    defaultRoundTrip (.varr [.vstr ":x".toList]) = .varr [.vstr "x".toList]
    ∧ defaultRoundTrip (.varr [.vstr ":x".toList]) ≠ .varr [.vstr ":x".toList]
    ∧ defaultRoundTrip (.varr [.vbuf [1]]) ≠ .varr [.vbuf [1]] :=
  ⟨rfl,
   fun h => absurd (congrArg obsHeadStr h) (by decide),
   fun h => absurd (congrArg obsHeadIsBuf h) (by decide)⟩

/-- Claim C1 (amended): `defaultDeserialize ∘ defaultSerialize` is the
identity on every top-level primitive, `null`, string (empty and
marker-prefixed included) and binary blob (empty included), and on every
nested object/array combination none of whose interior strings begins with
the `':'` marker and with no interior binary blob. -/
theorem defaultCodec_roundTrip_safe (v : JSValue) (h : topSafe v = true) :
    defaultRoundTrip v = v := by
  cases v with
  | vnull => rfl
  | vbool b => rfl
  | vnum n => rfl
  | vstr s => exact rt_top_string s
  | vbuf bytes =>
      have hb : ∀ x ∈ bytes, x < 256 := by
        simpa [topSafe, List.all_eq_true] using h
      show reviveTree (defaultSerialize (some (.vbuf bytes))) = .vbuf bytes
      simp only [defaultSerialize, reviveTree, isPrefixOf_append_self, if_true]
      have hd : (bufferMarker ++ b64encode bytes).drop 8 = b64encode bytes := by
        rw [show (8 : Nat) = bufferMarker.length from rfl, List.drop_left]
      rw [hd, b64decode_b64encode bytes hb]
  | varr xs =>
      exact rt_inner (.varr xs) (by simpa [topSafe, innerSafe] using h)
  | vobj kvs =>
      exact rt_inner (.vobj kvs) (by simpa [topSafe, innerSafe] using h)

/-- A nested mixed-type sample staying inside the safe fragment. -/
def roundTripSample : JSValue :=
  .vobj [("a".toList, .vstr "x".toList),
         ("b".toList, .varr [.vnum 3, .vnull, .vbool true]),
         ("c".toList, .vobj [("".toList, .vstr "".toList)])]

/-- Claim C1 (witness): the amended round-trip theorem applied to a concrete
nested object and to a concrete binary blob. -/
theorem defaultCodec_roundTrip_safe_witness :
    topSafe roundTripSample = true
    ∧ defaultRoundTrip roundTripSample = roundTripSample
    ∧ topSafe (.vbuf [0, 255, 7, 8]) = true
    ∧ defaultRoundTrip (.vbuf [0, 255, 7, 8]) = .vbuf [0, 255, 7, 8] :=
  ⟨by decide, defaultCodec_roundTrip_safe roundTripSample (by decide),
   by decide, defaultCodec_roundTrip_safe _ (by decide)⟩

/-- Claim C7: `clear()` empties the store, zeroes all seven statistics
counters, and is idempotent: a second `clear` produces exactly the state the
first one produced. -/
theorem memoryClear_resets_and_idempotent (st : AdapterState) :
    (MemoryAdapter.clear st).store = []
    ∧ (MemoryAdapter.clear st).stats.hits = 0
    ∧ (MemoryAdapter.clear st).stats.misses = 0
    ∧ (MemoryAdapter.clear st).stats.sets = 0
    ∧ (MemoryAdapter.clear st).stats.deletes = 0
    ∧ (MemoryAdapter.clear st).stats.expired = 0
    ∧ (MemoryAdapter.clear st).stats.keys = 0
    ∧ (MemoryAdapter.clear st).stats.memory = 0
    ∧ MemoryAdapter.clear (MemoryAdapter.clear st) = MemoryAdapter.clear st :=
  ⟨rfl, rfl, rfl, rfl, rfl, rfl, rfl, rfl, rfl⟩

/-- Claim C9: `defaultSerialize(undefined)` returns the same four-character
text `"null"` as `defaultSerialize(null)`, so an undefined value reaching
the codec is stored without error and read back as `null`. -/
theorem defaultSerialize_undefined_as_null :
    defaultSerializeText none = "null".toList
    ∧ defaultSerialize none = defaultSerialize (some .vnull)
    ∧ defaultDeserialize (defaultSerialize none) = .vnull :=
  ⟨rfl, rfl, rfl⟩

/-- Claim C2: after any successful `set` the entry count stays within
`maxKeys` (assuming it was within before, as every reachable state is); a
`set` of a key not present when the store already holds `maxKeys` entries
fails — and since the source throws before any mutation, the embedding has
no successor state, so map and counters are untouched; a `set` that
overwrites a present key succeeds at any store size and leaves the entry
count unchanged. -/
theorem memorySet_capacity (st : AdapterState) (k : Str) (v : JSValue)
    (ttl : Option Int) (now : Int) :
    (∀ st', MemoryAdapter.set st k v ttl now = .ok st' →
        st.store.length ≤ st.opts.maxKeys → st'.store.length ≤ st.opts.maxKeys)
    ∧ (mapHas st.store k = false → st.opts.maxKeys ≤ st.store.length →
        MemoryAdapter.set st k v ttl now = .error ())
    ∧ (mapHas st.store k = true →
        ∃ st', MemoryAdapter.set st k v ttl now = .ok st'
          ∧ st'.store.length = st.store.length) := by
  refine ⟨?_, ?_, ?_⟩
  · intro st' hok hle
    obtain ⟨hc, -, hs, -⟩ := set_ok_dest st k v ttl now st' hok
    rw [hs, length_mapSet]
    by_cases hhas : mapHas st.store k
    · rw [if_pos hhas]
      exact hle
    · rw [if_neg hhas]
      rw [Bool.not_eq_true] at hhas
      by_cases hge : st.opts.maxKeys ≤ st.store.length
      · exact absurd ⟨hhas, hge⟩ hc
      · omega
  · intro h1 h2
    exact (set_error_iff st k v ttl now).mpr ⟨h1, h2⟩
  · intro hhas
    refine ⟨updateStats { st with
        store := mapSet st.store k
          ⟨defaultSerialize (some v), setExpires st.opts.defaultTTL ttl now⟩,
        stats := { st.stats with sets := st.stats.sets + 1 } }, ?_, ?_⟩
    · rw [MemoryAdapter.set, if_neg (by simp [hhas])]
    · show (mapSet st.store k _).length = st.store.length
      rw [length_mapSet, if_pos hhas]

/-- Claim C2 (witness): with `maxKeys = 0` and an empty store, inserting any
new key fails. -/
theorem memorySet_capacity_witness :
    mapHas (AdapterState.mk ⟨0, 0⟩ [] zeroStats).store ['k'] = false
    ∧ (AdapterState.mk ⟨0, 0⟩ [] zeroStats).opts.maxKeys
        ≤ (AdapterState.mk ⟨0, 0⟩ [] zeroStats).store.length
    ∧ MemoryAdapter.set (AdapterState.mk ⟨0, 0⟩ [] zeroStats) ['k'] .vnull none 0
        = .error () :=
  ⟨rfl, by decide,
   (memorySet_capacity (AdapterState.mk ⟨0, 0⟩ [] zeroStats) ['k'] .vnull none 0).2.1
     rfl (by decide)⟩

/-- Claim C4: on a successful `set`, an explicit positive TTL stores
`expiresAt = now + ttl` whatever the configured default TTL is; an omitted
TTL falls back to the configured default (no expiry when that default is 0);
an explicit TTL of exactly 0 stores no expiry even when a nonzero default
TTL is configured. -/
theorem memorySet_ttl_selection (st : AdapterState) (k : Str) (v : JSValue)
    (now : Int) :
    (∀ t st', 0 < t → MemoryAdapter.set st k v (some t) now = .ok st' →
        mapGet st'.store k
          = some ⟨defaultSerialize (some v), some (now + t)⟩)
    ∧ (∀ st', MemoryAdapter.set st k v none now = .ok st' →
        mapGet st'.store k
          = some ⟨defaultSerialize (some v),
              if st.opts.defaultTTL = 0 then none
              else some (now + st.opts.defaultTTL)⟩)
    ∧ (∀ st', MemoryAdapter.set st k v (some 0) now = .ok st' →
        mapGet st'.store k = some ⟨defaultSerialize (some v), none⟩) := by
  refine ⟨?_, ?_, ?_⟩
  · intro t st' ht hok
    obtain ⟨-, -, hs, -⟩ := set_ok_dest st k v (some t) now st' hok
    rw [hs, mapGet_mapSet_self, setExpires_pos _ _ _ (by omega)]
  · intro st' hok
    obtain ⟨-, -, hs, -⟩ := set_ok_dest st k v none now st' hok
    rw [hs, mapGet_mapSet_self, setExpires_default]
  · intro st' hok
    obtain ⟨-, -, hs, -⟩ := set_ok_dest st k v (some 0) now st' hok
    rw [hs, mapGet_mapSet_self, setExpires_zero]

/-- A store configured with `defaultTTL = 5` and room for 10 keys. -/
def sampleTTLState : AdapterState := ⟨⟨5, 10⟩, [], zeroStats⟩

/-- The state `sampleTTLState` reaches after `set('k', null, 7)` at time 100. -/
def sampleTTLStateAfter : AdapterState :=
  ⟨⟨5, 10⟩, [(['k'], ⟨Json.jnull, some 107⟩)], ⟨0, 0, 1, 0, 0, 1, 26⟩⟩

/-- Claim C4 (witness): an explicit TTL of 7 at time 100 stores expiry 107
even though the default TTL is 5. -/
theorem memorySet_ttl_selection_witness :
    (0 : Int) < 7
    ∧ mapGet sampleTTLStateAfter.store ['k']
        = some ⟨defaultSerialize (some .vnull), some (100 + 7)⟩ :=
  ⟨by decide,
   (memorySet_ttl_selection sampleTTLState ['k'] .vnull 100).1 7
     sampleTTLStateAfter (by decide) rfl⟩

/-- A store holding one entry under key `k` that expired at time 100. -/
def sampleExpiredGetState : AdapterState :=
  ⟨⟨0, 10000⟩, [(['k'], ⟨Json.jnull, some 100⟩)], zeroStats⟩

/-- Claim C3 (counterexample): reading the expired entry at time 200 evicts
it and increments `expired`, but leaves `misses` at 0 — the claimed `misses`
increment does not happen (no adapter variant performs it). -/
theorem memoryGet_expired_no_miss :
    (MemoryAdapter.get sampleExpiredGetState ['k'] 200).1 = none
    ∧ (MemoryAdapter.get sampleExpiredGetState ['k'] 200).2.store = []
    ∧ (MemoryAdapter.get sampleExpiredGetState ['k'] 200).2.stats.expired = 1
    ∧ (MemoryAdapter.get sampleExpiredGetState ['k'] 200).2.stats.misses = 0
    ∧ ¬((MemoryAdapter.get sampleExpiredGetState ['k'] 200).2.stats.misses
          = sampleExpiredGetState.stats.misses + 1) :=
  ⟨rfl, rfl, rfl, rfl, by decide⟩

/-- Claim C3 (amended): `get` of an expired entry removes it, increments
`expired` — and only `expired`: `misses` and `hits` are untouched — and
returns absent; `get` of a present unexpired entry increments `hits`; `get`
of an absent key increments `misses`. -/
theorem memoryGet_counter_spec (st : AdapterState) (k : Str) (now : Int) :
    (∀ entry, mapGet st.store k = some entry →
        isExpired entry.expires now = true →
        (MemoryAdapter.get st k now).1 = none
        ∧ (MemoryAdapter.get st k now).2.store = mapDelete st.store k
        ∧ (MemoryAdapter.get st k now).2.stats.expired = st.stats.expired + 1
        ∧ (MemoryAdapter.get st k now).2.stats.misses = st.stats.misses
        ∧ (MemoryAdapter.get st k now).2.stats.hits = st.stats.hits)
    ∧ (∀ entry, mapGet st.store k = some entry →
        isExpired entry.expires now = false →
        (MemoryAdapter.get st k now).1 = some (defaultDeserialize entry.value)
        ∧ (MemoryAdapter.get st k now).2.store = st.store
        ∧ (MemoryAdapter.get st k now).2.stats.hits = st.stats.hits + 1
        ∧ (MemoryAdapter.get st k now).2.stats.misses = st.stats.misses
        ∧ (MemoryAdapter.get st k now).2.stats.expired = st.stats.expired)
    ∧ (mapGet st.store k = none →
        (MemoryAdapter.get st k now).1 = none
        ∧ (MemoryAdapter.get st k now).2.store = st.store
        ∧ (MemoryAdapter.get st k now).2.stats.misses = st.stats.misses + 1
        ∧ (MemoryAdapter.get st k now).2.stats.expired = st.stats.expired
        ∧ (MemoryAdapter.get st k now).2.stats.hits = st.stats.hits) := by
  refine ⟨?_, ?_, ?_⟩
  · intro entry hget hexp
    simp only [MemoryAdapter.get, hget, hexp, if_true]
    and_intros <;> trivial
  · intro entry hget hexp
    simp only [MemoryAdapter.get, hget, hexp, Bool.false_eq_true, if_false]
    and_intros <;> trivial
  · intro hget
    simp only [MemoryAdapter.get, hget]
    and_intros <;> trivial

/-- Claim C3 (witness): the amended `get` specification on the concrete
expired entry. -/
theorem memoryGet_counter_spec_witness :
    (MemoryAdapter.get sampleExpiredGetState ['k'] 200).1 = none
    ∧ (MemoryAdapter.get sampleExpiredGetState ['k'] 200).2.store
        = mapDelete sampleExpiredGetState.store ['k']
    ∧ (MemoryAdapter.get sampleExpiredGetState ['k'] 200).2.stats.expired
        = sampleExpiredGetState.stats.expired + 1
    ∧ (MemoryAdapter.get sampleExpiredGetState ['k'] 200).2.stats.misses
        = sampleExpiredGetState.stats.misses
    ∧ (MemoryAdapter.get sampleExpiredGetState ['k'] 200).2.stats.hits
        = sampleExpiredGetState.stats.hits :=
  (memoryGet_counter_spec sampleExpiredGetState ['k'] 200).1
    ⟨Json.jnull, some 100⟩ rfl rfl

/-- The claim's notion of a lapsed entry: an expiry timestamp strictly in
the past.  (On reachable stores, where `Date.now()`-derived timestamps are
never the falsy 0, this coincides with the code's truthiness-guarded
check.) -/
def entryPassed (e : StorageEntry) (now : Int) : Bool :=
  match e.expires with
  | none => false
  | some t => decide (t < now)

/-- Claim C8: `cleanup()` removes exactly the entries whose expiry has
passed, returns their number, adds exactly that number to the `expired`
counter, and keeps every other entry.  The store may not carry the falsy
timestamp 0, which `Date.now() + ttl` never produces on reachable states. -/
theorem memoryCleanup_spec (st : AdapterState) (now : Int)
    (hwf : ∀ kv ∈ st.store, kv.2.expires ≠ some 0) :
    (MemoryAdapter.cleanup st now).1
      = (st.store.filter (fun kv => entryPassed kv.2 now)).length
    ∧ (∀ kv, kv ∈ (MemoryAdapter.cleanup st now).2.store ↔
        kv ∈ st.store ∧ entryPassed kv.2 now = false)
    ∧ (MemoryAdapter.cleanup st now).2.stats.expired
      = st.stats.expired + (MemoryAdapter.cleanup st now).1
    ∧ (∀ kv ∈ (MemoryAdapter.cleanup st now).2.store,
        entryPassed kv.2 now = false) := by
  have hf : ∀ kv ∈ st.store, isExpired kv.2.expires now = entryPassed kv.2 now := by
    intro kv hkv
    cases he : kv.2.expires with
    | none => simp [isExpired, entryPassed, he]
    | some t =>
        have ht : t ≠ 0 := fun h0 => hwf kv hkv (by rw [he, h0])
        simp [isExpired, entryPassed, he, ht]
  have hcount : (MemoryAdapter.cleanup st now).1
      = (st.store.filter (fun kv => entryPassed kv.2 now)).length := by
    show (st.store.filter (fun kv => isExpired kv.2.expires now)).length = _
    rw [List.filter_congr hf]
  have hstore : (MemoryAdapter.cleanup st now).2.store
      = st.store.filter (fun kv => !(isExpired kv.2.expires now)) := rfl
  have hmem : ∀ kv, kv ∈ (MemoryAdapter.cleanup st now).2.store ↔
      kv ∈ st.store ∧ entryPassed kv.2 now = false := by
    intro kv
    rw [hstore]
    simp only [List.mem_filter]
    constructor
    · rintro ⟨h1, h2⟩
      refine ⟨h1, ?_⟩
      rw [← hf kv h1]
      simpa using h2
    · rintro ⟨h1, h2⟩
      refine ⟨h1, ?_⟩
      simp [hf kv h1, h2]
  exact ⟨hcount, hmem, rfl, fun kv hkv => ((hmem kv).mp hkv).2⟩

/-- Entries expiring at 100 and 300 beside one never-expiring entry. -/
def sampleCleanupState : AdapterState :=
  ⟨⟨0, 10000⟩,
   [(['a'], ⟨Json.jnull, some 100⟩),
    (['b'], ⟨Json.jnull, none⟩),
    (['c'], ⟨Json.jnull, some 300⟩)],
   zeroStats⟩

/-- Claim C8 (witness): sweeping `sampleCleanupState` at time 200. -/
theorem memoryCleanup_spec_witness :
    (MemoryAdapter.cleanup sampleCleanupState 200).1
      = (sampleCleanupState.store.filter (fun kv => entryPassed kv.2 200)).length
    ∧ (MemoryAdapter.cleanup sampleCleanupState 200).2.stats.expired
      = sampleCleanupState.stats.expired + (MemoryAdapter.cleanup sampleCleanupState 200).1 :=
  ⟨(memoryCleanup_spec sampleCleanupState 200 (by decide)).1,
   (memoryCleanup_spec sampleCleanupState 200 (by decide)).2.2.1⟩

/-- A live `key1` beside a `temp` entry that expired at time 50. -/
def sampleKeysState : AdapterState :=
  ⟨⟨0, 10000⟩,
   [("key1".toList, ⟨Json.jstr "v1".toList, none⟩),
    ("temp".toList, ⟨Json.jstr "v2".toList, some 50⟩)],
   zeroStats⟩

/-- Claim C5 (code bug): at time 200 the final adapter's `keys()` still
returns the expired key `temp` — it enumerates without sweeping — while the
events-variant `keys()`, which runs `cleanup()` first as the claim and the
adapter's own test (`test/memory-adapter.test.ts`, "should get all keys
after cleanup") demand, returns only `key1`. -/
theorem memoryKeys_returns_expired_key :
    MemoryAdapter.keys sampleKeysState = ["key1".toList, "temp".toList]
    ∧ isExpired (some 50) 200 = true
    ∧ (MemoryAdapter.keysWithCleanup sampleKeysState 200).1 = ["key1".toList] :=
  ⟨rfl, rfl, rfl⟩

/-- Claim C6: `mset` applies the individual `set`s in list order; when no
set fails it equals the sequential application of all of them; when the
`i`-th set fails, the failure index is reported, the resulting state is
exactly the sequential application of the first `i` entries (no rollback,
nothing after position `i` written), and the `i`-th entry's `set` indeed
fails from that state. -/
theorem memoryMset_prefix_semantics (st : AdapterState)
    (entries : List (Str × JSValue)) (ttl : Option Int) (now : Int) :
    (∀ st', MemoryAdapter.mset st entries ttl now = (st', none) →
        MemoryAdapter.applyAll st entries ttl now = some st')
    ∧ (∀ st' i, MemoryAdapter.mset st entries ttl now = (st', some i) →
        i < entries.length
        ∧ MemoryAdapter.applyAll st (entries.take i) ttl now = some st'
        ∧ ∃ kv, entries.get? i = some kv
            ∧ MemoryAdapter.set st' kv.1 kv.2 ttl now = .error ()) := by
  induction entries generalizing st with
  | nil =>
      constructor
      · intro st' h
        simp only [MemoryAdapter.mset, Prod.mk.injEq] at h
        rw [← h.1]
        rfl
      · intro st' i h
        simp only [MemoryAdapter.mset, Prod.mk.injEq] at h
        exact absurd h.2 (by simp)
  | cons kv rest ih =>
      obtain ⟨k, v⟩ := kv
      constructor
      · intro st' h
        simp only [MemoryAdapter.mset] at h
        cases hset : MemoryAdapter.set st k v ttl now with
        | error e =>
            rw [hset] at h
            simp only [Prod.mk.injEq] at h
            exact absurd h.2 (by simp)
        | ok st1 =>
            rw [hset] at h
            simp only [Prod.mk.injEq] at h
            obtain ⟨h1, h2⟩ := h
            rw [Option.map_eq_none'] at h2
            show (match MemoryAdapter.set st k v ttl now with
                  | .error _ => none
                  | .ok s => MemoryAdapter.applyAll s rest ttl now) = some st'
            rw [hset]
            exact (ih st1).1 st' (by rw [← h1, ← h2])
      · intro st' i h
        simp only [MemoryAdapter.mset] at h
        cases hset : MemoryAdapter.set st k v ttl now with
        | error e =>
            cases e
            rw [hset] at h
            simp only [Prod.mk.injEq, Option.some.injEq] at h
            obtain ⟨h1, h2⟩ := h
            subst h1
            subst h2
            refine ⟨by simp, by rfl, ⟨(k, v), rfl, hset⟩⟩
        | ok st1 =>
            rw [hset] at h
            simp only [Prod.mk.injEq] at h
            obtain ⟨h1, h2⟩ := h
            rw [Option.map_eq_some'] at h2
            obtain ⟨j, hj, hji⟩ := h2
            obtain ⟨hlt, happ, kv', hget, herr⟩ :=
              (ih st1).2 st' j (by rw [← h1, ← hj])
            subst hji
            refine ⟨by simpa using hlt, ?_, ⟨kv', by simpa using hget, herr⟩⟩
            rw [List.take_succ_cons]
            show (match MemoryAdapter.set st k v ttl now with
                  | .error _ => none
                  | .ok s => MemoryAdapter.applyAll s (rest.take j) ttl now) = some st'
            rw [hset]
            exact happ

/-- A store capped at one key. -/
def sampleMsetState : AdapterState := ⟨⟨0, 1⟩, [], zeroStats⟩

/-- `sampleMsetState` after the first batch entry `('a', null)` landed. -/
def sampleMsetAfter : AdapterState :=
  ⟨⟨0, 1⟩, [(['a'], ⟨Json.jnull, none⟩)], ⟨0, 0, 1, 0, 0, 1, 26⟩⟩

/-- The two-entry batch whose second entry overflows the one-key cap. -/
def sampleMsetEntries : List (Str × JSValue) :=
  [(['a'], .vnull), (['b'], .vnull)]

/-- Claim C6 (witness): the batch stops at index 1, the first entry stays
committed, and the failing `set` is the second entry's. -/
theorem memoryMset_prefix_semantics_witness :
    1 < sampleMsetEntries.length
    ∧ MemoryAdapter.applyAll sampleMsetState (sampleMsetEntries.take 1) none 0
        = some sampleMsetAfter
    ∧ ∃ kv, sampleMsetEntries.get? 1 = some kv
        ∧ MemoryAdapter.set sampleMsetAfter kv.1 kv.2 none 0 = .error () :=
  (memoryMset_prefix_semantics sampleMsetState sampleMsetEntries none 0).2
    sampleMsetAfter 1 rfl

/-- An empty store with no default TTL. -/
def sampleNegState : AdapterState := ⟨⟨0, 10000⟩, [], zeroStats⟩

/-- `sampleNegState` after `set('k', null, -5)` at time 100: the entry is
written with the already-past expiry 95. -/
def sampleNegAfterSet : AdapterState :=
  ⟨⟨0, 10000⟩, [(['k'], ⟨Json.jnull, some 95⟩)], ⟨0, 0, 1, 0, 0, 1, 26⟩⟩

/-- Claim C10 (counterexample): after a `set` with TTL −5, the first `get`
evicts the entry and increments `expired` to 1, but the second `get` is a
plain miss: it increments `misses`, not `expired` — so not *every*
subsequent access evicts and bumps the expired counter, only the first
does. -/
theorem memorySet_negative_ttl_counterexample :
    MemoryAdapter.set sampleNegState ['k'] .vnull (some (-5)) 100
      = .ok sampleNegAfterSet
    ∧ (MemoryAdapter.get sampleNegAfterSet ['k'] 101).1 = none
    ∧ (MemoryAdapter.get sampleNegAfterSet ['k'] 101).2.stats.expired = 1
    ∧ (MemoryAdapter.get ((MemoryAdapter.get sampleNegAfterSet ['k'] 101).2)
        ['k'] 102).1 = none
    ∧ (MemoryAdapter.get ((MemoryAdapter.get sampleNegAfterSet ['k'] 101).2)
        ['k'] 102).2.stats.misses = 1
    ∧ ¬((MemoryAdapter.get ((MemoryAdapter.get sampleNegAfterSet ['k'] 101).2)
        ['k'] 102).2.stats.expired
          = (MemoryAdapter.get sampleNegAfterSet ['k'] 101).2.stats.expired + 1) :=
  ⟨rfl, rfl, rfl, rfl, rfl, by decide⟩

/-- Claim C10 (amended): a `set` with strictly negative TTL writes an entry
whose expiry `now + ttl` lies in the past, and the entry is never
observable: any later `get` returns absent and any later `exists` returns
false; the *first* such access evicts the entry and increments `expired`,
and after that eviction every further `get` still returns absent (as a
plain miss).  `now + ttl ≠ 0` excludes the falsy timestamp that a real
clock never produces. -/
theorem memorySet_negative_ttl_unobservable (st : AdapterState) (k : Str)
    (v : JSValue) (t now now2 : Int) (st1 : AdapterState)
    (ht : t < 0) (hset : MemoryAdapter.set st k v (some t) now = .ok st1)
    (hnow : now ≤ now2) (hnz : now + t ≠ 0)
    (hnd : (st.store.map Prod.fst).Nodup) :
    mapGet st1.store k = some ⟨defaultSerialize (some v), some (now + t)⟩
    ∧ now + t < now
    ∧ (MemoryAdapter.get st1 k now2).1 = none
    ∧ (MemoryAdapter.get st1 k now2).2.store = mapDelete st1.store k
    ∧ (MemoryAdapter.get st1 k now2).2.stats.expired = st1.stats.expired + 1
    ∧ (MemoryAdapter.existsKey st1 k now2).1 = false
    ∧ (MemoryAdapter.existsKey st1 k now2).2.stats.expired = st1.stats.expired + 1
    ∧ (∀ n3, (MemoryAdapter.get ((MemoryAdapter.get st1 k now2).2) k n3).1 = none) := by
  obtain ⟨-, -, hs, -⟩ := set_ok_dest st k v (some t) now st1 hset
  have hg : mapGet st1.store k
      = some ⟨defaultSerialize (some v), some (now + t)⟩ := by
    rw [hs, mapGet_mapSet_self, setExpires_pos _ _ _ (by omega)]
  have hexp : isExpired (some (now + t)) now2 = true := by
    show ((now + t) != 0 && decide (now + t < now2)) = true
    rw [Bool.and_eq_true, bne_iff_ne, decide_eq_true_eq]
    exact ⟨hnz, by omega⟩
  have hgr : MemoryAdapter.get st1 k now2
      = (none, updateStats { st1 with
          store := mapDelete st1.store k,
          stats := { st1.stats with expired := st1.stats.expired + 1 } }) := by
    simp only [MemoryAdapter.get, hg, hexp, if_true]
  have her : MemoryAdapter.existsKey st1 k now2
      = (false, updateStats { st1 with
          store := mapDelete st1.store k,
          stats := { st1.stats with expired := st1.stats.expired + 1 } }) := by
    simp only [MemoryAdapter.existsKey, hg, hexp, if_true]
  refine ⟨hg, by omega, by rw [hgr], by rw [hgr]; rfl, by rw [hgr]; rfl,
    by rw [her], by rw [her]; rfl, ?_⟩
  intro n3
  have hnd1 : (st1.store.map Prod.fst).Nodup := by
    rw [hs]
    exact nodup_keys_mapSet _ _ _ hnd
  have h2 : mapGet ((MemoryAdapter.get st1 k now2).2).store k = none := by
    rw [hgr]
    show mapGet (mapDelete st1.store k) k = none
    exact mapGet_mapDelete_self _ _ hnd1
  generalize (MemoryAdapter.get st1 k now2).2 = st2 at h2 ⊢
  simp only [MemoryAdapter.get, h2]

/-- Claim C10 (witness): the amended statement on the concrete −5-TTL run. -/
theorem memorySet_negative_ttl_unobservable_witness :
    mapGet sampleNegAfterSet.store ['k']
      = some ⟨defaultSerialize (some .vnull), some (100 + -5)⟩
    ∧ (100 : Int) + -5 < 100
    ∧ (MemoryAdapter.get sampleNegAfterSet ['k'] 101).1 = none
    ∧ (MemoryAdapter.get sampleNegAfterSet ['k'] 101).2.store
        = mapDelete sampleNegAfterSet.store ['k']
    ∧ (MemoryAdapter.get sampleNegAfterSet ['k'] 101).2.stats.expired
        = sampleNegAfterSet.stats.expired + 1
    ∧ (MemoryAdapter.existsKey sampleNegAfterSet ['k'] 101).1 = false
    ∧ (MemoryAdapter.existsKey sampleNegAfterSet ['k'] 101).2.stats.expired
        = sampleNegAfterSet.stats.expired + 1
    ∧ (∀ n3, (MemoryAdapter.get
        ((MemoryAdapter.get sampleNegAfterSet ['k'] 101).2) ['k'] n3).1 = none) :=
  memorySet_negative_ttl_unobservable sampleNegState ['k'] .vnull (-5) 100 101
    sampleNegAfterSet (by decide) rfl (by decide) (by decide) (by decide)
